import Mathlib

/-!
Verification development for the content-plan generation pipeline.

The repository holds three source files: `src/App.tsx` (the orchestrator:
form submission, approve/edit/publish operations, the background image
loop), `src/services/geminiService.ts` (the external-call layer: retry
wrapper, plan generation, per-post image generation, post editing), and an
unnamed variant of the service file (referred to here with the marker
`P0`) whose retry defaults, backoff factor, quota classification,
placeholder seeding, date derivation and inline image loop differ from the
named service file.  Both variants are embedded below; definitions carry
the source file and the behaviour they transcribe.

External effects are made explicit inputs: the wrapped network call
becomes a function from the attempt index to a result, `Math.random`
draws become streams of strings indexed by position, the current time is
an integer of epoch milliseconds, and a post's `date` is embedded as the
millisecond value handed to the locale formatter (the formatter itself is
outside the embedded code).
-/

namespace ContentFactory

/-- Modelled from the spec: `types.ts` is not present under `src/`.  The
post lifecycle enum `PostStatus` with the three states used by the code
(`PENDING`, `APPROVED`, `PUBLISHED`), per spec section 3. -/
inductive PostStatus where
  | PENDING
  | APPROVED
  | PUBLISHED
deriving DecidableEq

/-- Modelled from the spec: `types.ts` is not present under `src/`.  The
plan period enum (`WEEK` = 7 days, `MONTH` = 30 days), per spec section 3. -/
inductive Period where
  | WEEK
  | MONTH
deriving DecidableEq

/-- Modelled from the spec: `types.ts` is not present under `src/`.  The
`Post` entity, per spec section 3 and its uses in both service files.  The
`date` field holds the epoch-millisecond value passed to the display
formatter (`new Date(...)` before `toLocaleDateString`); `script` is
optional in the upstream JSON schema and is spread into the post
unchanged, hence `Option String`. -/
structure Post where
  id : String
  title : String
  type : String
  content : String
  script : Option String
  day : Int
  date : Int
  imagePrompt : String
  imageUrl : String
  status : PostStatus
  editCount : Nat
deriving DecidableEq

/-- Modelled from the spec: `types.ts` is not present under `src/`.  A
history entry `{niche, title}`, per spec section 3. -/
structure ContentHistoryItem where
  niche : String
  title : String
deriving DecidableEq

/-- A JavaScript error value as the retry wrapper inspects it: the
`message` string and the optional numeric `status` field. -/
structure JsError where
  message : String
  status : Option Nat
deriving DecidableEq

/-- Character-list version of JavaScript `String.prototype.startsWith`. -/
def charsStart : List Char → List Char → Bool
  | _, [] => true
  | [], _ :: _ => false
  | a :: s, b :: p => a == b && charsStart s p

/-- Character-list version of JavaScript `String.prototype.includes`:
does the first list contain the second as a contiguous sublist? -/
def charsInclude : List Char → List Char → Bool
  | [], pat => charsStart [] pat
  | c :: t, pat => charsStart (c :: t) pat || charsInclude t pat

/-- JavaScript `s.includes(pat)` on Lean strings. -/
def strIncludes (s pat : String) : Bool :=
  charsInclude s.data pat.data

/-- Quota classification from `src/services/geminiService.ts` lines 18-23:
message contains `429`, or status is 429, or message contains
`RESOURCE_EXHAUSTED`, `Quota`, or `limit`. -/
def isQuotaError (e : JsError) : Bool :=
  strIncludes e.message "429" || e.status == some 429 ||
    strIncludes e.message "RESOURCE_EXHAUSTED" ||
    strIncludes e.message "Quota" || strIncludes e.message "limit"

/-- Quota classification from the unnamed service variant lines 17-22:
as `isQuotaError` but without the `limit` marker. -/
def isQuotaErrorP0 (e : JsError) : Bool :=
  strIncludes e.message "429" || e.status == some 429 ||
    strIncludes e.message "RESOURCE_EXHAUSTED" ||
    strIncludes e.message "Quota"

/-- Trace of one run of the retry wrapper: the final result, the backoff
delays actually waited (in order), and the number of attempts made. -/
structure RetryRun (α : Type) where
  result : Except JsError α
  delays : List ℚ
  attempts : Nat

/-- Core of `fetchWithRetry` (both service files share this shape): try
the wrapped call; on an error that the classifier accepts while retries
remain, wait the current delay, scale it by the backoff function,
decrement the budget and recurse; otherwise rethrow.  The wrapped call
`fn` is indexed by the attempt number; delays are exact rationals. -/
def retryAux (quota : JsError → Bool) (mul : ℚ → ℚ) (fn : Nat → Except JsError α) :
    Nat → ℚ → Nat → RetryRun α
  | 0, _, attempt =>
    match fn attempt with
    | Except.ok v => ⟨Except.ok v, [], 1⟩
    | Except.error e => ⟨Except.error e, [], 1⟩
  | r + 1, delay, attempt =>
    match fn attempt with
    | Except.ok v => ⟨Except.ok v, [], 1⟩
    | Except.error e =>
      if quota e then
        let rest := retryAux quota mul fn r (mul delay) (attempt + 1)
        ⟨rest.result, delay :: rest.delays, rest.attempts + 1⟩
      else ⟨Except.error e, [], 1⟩

/-- Default retry budget of `fetchWithRetry` in `geminiService.ts` (5). -/
def fetchWithRetryDefaultRetries : Nat := 5

/-- Default initial delay of `fetchWithRetry` in `geminiService.ts` (5000 ms). -/
def fetchWithRetryDefaultDelay : ℚ := 5000

/-- `fetchWithRetry` from `src/services/geminiService.ts` lines 14-32:
quota classification `isQuotaError`, backoff factor 1.5. -/
def fetchWithRetry (fn : Nat → Except JsError α) (retries : Nat) (delay : ℚ) : RetryRun α :=
  retryAux isQuotaError (fun d => d * (3 / 2)) fn retries delay 0

/-- Default retry budget of `fetchWithRetry` in the unnamed variant (3). -/
def fetchWithRetryP0DefaultRetries : Nat := 3

/-- Default initial delay of `fetchWithRetry` in the unnamed variant (2000 ms). -/
def fetchWithRetryP0DefaultDelay : ℚ := 2000

/-- `fetchWithRetry` from the unnamed service variant lines 13-29: quota
classification `isQuotaErrorP0`, backoff factor 2. -/
def fetchWithRetryP0 (fn : Nat → Except JsError α) (retries : Nat) (delay : ℚ) : RetryRun α :=
  retryAux isQuotaErrorP0 (fun d => d * 2) fn retries delay 0

/-- The geometric backoff schedule: `[d, mul d, mul (mul d), ...]` of the
given length. -/
def geomList (mul : ℚ → ℚ) : ℚ → Nat → List ℚ
  | _, 0 => []
  | d, k + 1 => d :: geomList mul (mul d) k

/-- Milliseconds per day, as the literal `24 * 60 * 60 * 1000` used by
both service files. -/
def msPerDay : Int := 86400000

/-- Plan length in days, from `const days = period === Period.WEEK ? 7 : 30`
(present identically in both service files). -/
def periodDays (period : Period) : Nat :=
  if period == Period.WEEK then 7 else 30

/-- JavaScript `toLowerCase`, as the character-wise lowering that
`String.toLower` also performs. -/
def strToLower (s : String) : String :=
  String.mk (s.data.map Char.toLower)

/-- Titles of prior history entries whose niche matches the target niche
case-insensitively, from
`history.filter(h => h.niche.toLowerCase() === niche.toLowerCase()).map(h => h.title)`
(identical in both service files). -/
def relevantHistory (history : List ContentHistoryItem) (niche : String) : List String :=
  (history.filter (fun h => strToLower h.niche == strToLower niche)).map (fun h => h.title)

/-- The exclusion instruction embedded into the plan-generation prompt:
the template around `relevantHistory.join(', ')` when any title matched,
and the empty string otherwise (identical in both service files). -/
def historyPrompt (history : List ContentHistoryItem) (niche : String) : String :=
  if 0 < (relevantHistory history niche).length then
    "ВАЖНО: Никогда не повторяй эти темы: " ++
      String.intercalate ", " (relevantHistory history niche) ++ "."
  else ""

/-- A raw plan record as returned by the upstream model, per the response
schema of `generateContentPlan` in both service files (`script` is not in
the schema's required list). -/
structure RawPost where
  title : String
  type : String
  content : String
  script : Option String
  day : Int
  imagePrompt : String
deriving DecidableEq

/-- Normalization of one raw record in `geminiService.ts` lines 146-153:
spread the record, attach the freshly drawn id, derive
`date = now + (day - 1) * msPerDay`, default status `PENDING`, `editCount`
0 and empty `imageUrl`. -/
def normalizePost (now : Int) (pid : String) (p : RawPost) : Post :=
  { id := pid
    title := p.title
    type := p.type
    content := p.content
    script := p.script
    day := p.day
    date := now + (p.day - 1) * msPerDay
    imagePrompt := p.imagePrompt
    imageUrl := ""
    status := PostStatus.PENDING
    editCount := 0 }

/-- The map over raw records in `geminiService.ts`, with the position in
the list made explicit so that the per-element `Math.random()` id draws
become a stream `ids` indexed by position. -/
def planPostsFrom (now : Int) (ids : Nat → String) : Nat → List RawPost → List Post
  | _, [] => []
  | i, p :: rest => normalizePost now (ids i) p :: planPostsFrom now ids (i + 1) rest

/-- The normalization performed by `generateContentPlan` in
`geminiService.ts` (lines 146-153): ids drawn per position, dates keyed on
the model-returned `day`. -/
def generateContentPlanPosts (now : Int) (ids : Nat → String) (raw : List RawPost) : List Post :=
  planPostsFrom now ids 0 raw

/-- Outcome of one per-post image call chain: the response carried an
inline image payload with the given base64 data, carried no inline
payload, or the whole chain threw (including retry exhaustion). -/
inductive ImgOutcome where
  | success (dataB64 : String)
  | noInline
  | failure
deriving DecidableEq

/-- `generateImageForPost` from `geminiService.ts` lines 156-195, reduced
to the returned reference: on an inline payload, the data url; on a
missing payload the code throws internally and, like every other failure,
lands in the catch that returns the placeholder seeded by the post id.
The prompt composition (title, content excerpt, tone, reference files)
does not affect which reference is returned and is not transcribed. -/
def generateImageForPost (post : Post) (outcome : ImgOutcome) : String :=
  match outcome with
  | ImgOutcome.success d => "data:image/png;base64," ++ d
  | ImgOutcome.noInline => "https://picsum.photos/seed/" ++ post.id ++ "/800/800"
  | ImgOutcome.failure => "https://picsum.photos/seed/" ++ post.id ++ "/800/800"

/-- Normalization of one raw record inside the unnamed variant's
`generateContentPlan` loop (lines 139-190): the date is keyed on the loop
index, not on `day`; the `imageUrl` is the inline payload when one was
found, the empty string when the response had no inline part (the loop
does not throw in that case), and a placeholder seeded by a fresh
`Math.random()` draw when the chain threw. -/
def normalizePostP0 (now : Int) (pid : String) (img : ImgOutcome) (seed : String)
    (i : Nat) (p : RawPost) : Post :=
  { id := pid
    title := p.title
    type := p.type
    content := p.content
    script := p.script
    day := p.day
    date := now + (i : Int) * msPerDay
    imagePrompt := p.imagePrompt
    imageUrl :=
      match img with
      | ImgOutcome.success d => "data:image/png;base64," ++ d
      | ImgOutcome.noInline => ""
      | ImgOutcome.failure => "https://picsum.photos/seed/" ++ seed ++ "/800/800"
    status := PostStatus.PENDING
    editCount := 0 }

/-- The `for (let index = 0; ...)` loop of the unnamed variant's
`generateContentPlan`, with the per-iteration image outcome, random seed
draw and random id draw made explicit streams indexed by position. -/
def planPostsFromP0 (now : Int) (ids : Nat → String) (img : Nat → ImgOutcome)
    (seeds : Nat → String) : Nat → List RawPost → List Post
  | _, [] => []
  | i, p :: rest =>
      normalizePostP0 now (ids i) (img i) (seeds i) i p ::
        planPostsFromP0 now ids img seeds (i + 1) rest

/-- The normalization performed by `generateContentPlan` in the unnamed
service variant (lines 139-192). -/
def generateContentPlanPostsP0 (now : Int) (ids : Nat → String) (img : Nat → ImgOutcome)
    (seeds : Nat → String) (raw : List RawPost) : List Post :=
  planPostsFromP0 now ids img seeds 0 raw

/-- The `imageUrl` the unnamed variant's loop assigns for one per-post
image outcome (the same case analysis as in `normalizePostP0`): the data
url on an inline payload, the empty string when the response carried no
inline part, and the random-seeded placeholder when the chain threw. -/
def p0ImageUrl (o : ImgOutcome) (seed : String) : String :=
  match o with
  | ImgOutcome.success d => "data:image/png;base64," ++ d
  | ImgOutcome.noInline => ""
  | ImgOutcome.failure => "https://picsum.photos/seed/" ++ seed ++ "/800/800"

/-- The shape of the edit response, per the `editPostContent` response
schema in both service files: `content` required, `script` and
`imagePrompt` optional. -/
structure EditResult where
  content : String
  script : Option String
  imagePrompt : Option String
deriving DecidableEq

/-- JavaScript `a || b` on an optional string against an optional string:
`undefined` and the empty string are falsy. -/
def jsOrOpt (a : Option String) (b : Option String) : Option String :=
  match a with
  | some s => if s.isEmpty then b else some s
  | none => b

/-- JavaScript `a || b` on an optional string against a string. -/
def jsOrStr (a : Option String) (b : String) : String :=
  match a with
  | some s => if s.isEmpty then b else s
  | none => b

/-- `editPostContent` from both service files (lines 197-255 of
`geminiService.ts`; the variant is textually identical here): spread the
input post, replace `content`, fall back on the old `script` and
`imagePrompt` when the response omits them, adopt the updated image when
the image refresh produced an inline payload (any exception there is
swallowed and keeps the prior image), bump `editCount` and reset status
to `PENDING`.  `feedback` only feeds the prompt text. -/
def editPostContent (post : Post) (feedback : String) (updated : EditResult)
    (imgUpd : Option String) : Post :=
  { post with
    content := updated.content
    script := jsOrOpt updated.script post.script
    imagePrompt := jsOrStr updated.imagePrompt post.imagePrompt
    imageUrl :=
      match imgUpd with
      | some d => "data:image/png;base64," ++ d
      | none => post.imageUrl
    editCount := post.editCount + 1
    status := PostStatus.PENDING }

/-- The per-post update of `approvePost` in `src/App.tsx` lines 149-155:
the matched post gets status `APPROVED` unconditionally, all other posts
are returned untouched. -/
def approveFlip (idv : String) (p : Post) : Post :=
  if p.id == idv then { p with status := PostStatus.APPROVED } else p

/-- `approvePost` from `src/App.tsx` lines 149-155. -/
def approvePost (posts : List Post) (idv : String) : List Post :=
  posts.map (approveFlip idv)

/-- Whether a post is currently approved, as tested by `handlePublish`. -/
def isApprovedPost (p : Post) : Bool :=
  p.status == PostStatus.APPROVED

/-- The status flip applied by `handlePublish` on success. -/
def publishFlip (p : Post) : Post :=
  if p.status == PostStatus.APPROVED then { p with status := PostStatus.PUBLISHED } else p

/-- `handlePublish` from `src/App.tsx` lines 171-191: filter the approved
posts; when none, alert and return without calling out (second component
`none`); otherwise hand exactly the approved posts to `sendToTelegram`
(second component `some`), and on success flip every approved post to
`PUBLISHED`, on failure leave the plan as it was.  The external call's
success is the explicit input `sendOk`. -/
def handlePublish (posts : List Post) (sendOk : Bool) : List Post × Option (List Post) :=
  let approvedPosts := posts.filter isApprovedPost
  if approvedPosts.isEmpty then (posts, none)
  else if sendOk then (posts.map publishFlip, some approvedPosts)
  else (posts, some approvedPosts)

/-- One observable step of an image loop: an artificial wait of the given
milliseconds, or the image call for the post at the given position. -/
inductive ImgEvent where
  | delay (ms : Nat)
  | call (idx : Nat)
deriving DecidableEq

/-- The background image loop of `src/App.tsx` lines 94-110: for every
post, in order, first `await` a 4000 ms pause, then the image call (the
per-post try/catch does not change the event order). -/
def appImageLoop : Nat → Nat → List ImgEvent
  | _, 0 => []
  | i, n + 1 => ImgEvent.delay 4000 :: ImgEvent.call i :: appImageLoop (i + 1) n

/-- Event trace of the `App.tsx` background image loop over `n` posts. -/
def appImageTrace (n : Nat) : List ImgEvent :=
  appImageLoop 0 n

/-- The inline image loop of the unnamed variant's `generateContentPlan`
(lines 140-144): a 3000 ms pause before the call only when `index > 0`. -/
def p0ImageLoop : Nat → Nat → List ImgEvent
  | _, 0 => []
  | i, n + 1 =>
      (if 0 < i then [ImgEvent.delay 3000] else []) ++
        ImgEvent.call i :: p0ImageLoop (i + 1) n

/-- Event trace of the unnamed variant's inline image loop over `n` posts. -/
def p0ImageTrace (n : Nat) : List ImgEvent :=
  p0ImageLoop 0 n

/-- Whether an event is a delay. -/
def isDelayEvt : ImgEvent → Bool
  | ImgEvent.delay _ => true
  | ImgEvent.call _ => false

/-- The call positions of a trace, in order. -/
def callsOf : List ImgEvent → List Nat
  | [] => []
  | ImgEvent.delay _ :: rest => callsOf rest
  | ImgEvent.call i :: rest => i :: callsOf rest

/-- Helper for `delayGaps`: `acc` counts the delays seen since the last
call (or the start of the trace). -/
def gapsAux : Nat → List ImgEvent → List Nat
  | _, [] => []
  | acc, ImgEvent.delay _ :: rest => gapsAux (acc + 1) rest
  | acc, ImgEvent.call _ :: rest => acc :: gapsAux 0 rest

/-- For each call of a trace, in order, the number of delay events that
immediately precede it (since the previous call or the trace start). -/
def delayGaps (tr : List ImgEvent) : List Nat :=
  gapsAux 0 tr


lemma retryAux_attempts_le (quota : JsError → Bool) (mul : ℚ → ℚ) (fn : Nat → Except JsError α) :
    ∀ (r : Nat) (d : ℚ) (a : Nat), (retryAux quota mul fn r d a).attempts ≤ r + 1 := by
  intro r
  induction r with
  | zero =>
      intro d a
      simp only [retryAux]
      cases fn a <;> simp
  | succ n ih =>
      intro d a
      simp only [retryAux]
      cases fn a with
      | ok v => simp
      | error e =>
          by_cases hq : quota e = true
          · simp only [hq, if_true]
            exact Nat.succ_le_succ (ih (mul d) (a + 1))
          · simp [hq]

lemma retryAux_always (quota : JsError → Bool) (mul : ℚ → ℚ) (fn : Nat → Except JsError α)
    (hq : ∀ n, ∃ e, fn n = Except.error e ∧ quota e = true) :
    ∀ (r : Nat) (d : ℚ) (a : Nat),
      (retryAux quota mul fn r d a).attempts = r + 1 ∧
        (retryAux quota mul fn r d a).delays = geomList mul d r := by
  intro r
  induction r with
  | zero =>
      intro d a
      obtain ⟨e, he, hqe⟩ := hq a
      simp [retryAux, he, geomList]
  | succ n ih =>
      intro d a
      obtain ⟨e, he, hqe⟩ := hq a
      simp only [retryAux, he, hqe, if_true, geomList]
      exact ⟨by simpa using (ih (mul d) (a + 1)).1, by simpa using (ih (mul d) (a + 1)).2⟩

lemma geomList_chain (mul : ℚ → ℚ) (hm : ∀ x : ℚ, 0 ≤ x → x ≤ mul x)
    (hm0 : ∀ x : ℚ, 0 ≤ x → 0 ≤ mul x) :
    ∀ (k : Nat) (d : ℚ), 0 ≤ d → List.Chain' (fun x y : ℚ => x ≤ y) (geomList mul d k) := by
  intro k
  induction k with
  | zero => intro d _; simp [geomList]
  | succ n ih =>
      intro d hd
      rcases n with _ | m
      · simp [geomList]
      · rw [show geomList mul d (m + 1 + 1) = d :: geomList mul (mul d) (m + 1) from rfl]
        refine List.chain'_cons'.mpr ⟨?_, ih (mul d) (hm0 d hd)⟩
        intro b hb
        rw [show geomList mul (mul d) (m + 1) = mul d :: geomList mul (mul (mul d)) m from rfl] at hb
        simp only [List.head?_cons, Option.mem_some_iff] at hb
        rw [← hb]
        exact hm d hd

lemma retryAux_result_error (quota : JsError → Bool) (mul : ℚ → ℚ) (fn : Nat → Except JsError α) :
    ∀ (r : Nat) (d : ℚ) (a : Nat) (e : JsError),
      (retryAux quota mul fn r d a).result = Except.error e →
        ∃ k, k ≤ r ∧ fn (a + k) = Except.error e := by
  intro r
  induction r with
  | zero =>
      intro d a e h
      simp only [retryAux] at h
      cases hfa : fn a with
      | ok v => rw [hfa] at h; simp at h
      | error e2 =>
          rw [hfa] at h
          simp at h
          exact ⟨0, Nat.le_refl 0, by rw [Nat.add_zero, hfa, h]⟩
  | succ n ih =>
      intro d a e h
      simp only [retryAux] at h
      cases hfa : fn a with
      | ok v => rw [hfa] at h; simp at h
      | error e2 =>
          rw [hfa] at h
          by_cases hq : quota e2 = true
          · simp only [hq, if_true] at h
            obtain ⟨k, hk, hke⟩ := ih (mul d) (a + 1) e h
            exact ⟨k + 1, Nat.succ_le_succ hk,
              by rw [show a + (k + 1) = a + 1 + k by omega]; exact hke⟩
          · simp only [hq, if_false] at h
            simp at h
            exact ⟨0, Nat.zero_le _, by rw [Nat.add_zero, hfa, h]⟩

lemma retryAux_result_ok (quota : JsError → Bool) (mul : ℚ → ℚ) (fn : Nat → Except JsError α) :
    ∀ (r : Nat) (d : ℚ) (a : Nat) (v : α),
      (retryAux quota mul fn r d a).result = Except.ok v →
        ∃ k, k ≤ r ∧ fn (a + k) = Except.ok v := by
  intro r
  induction r with
  | zero =>
      intro d a v h
      simp only [retryAux] at h
      cases hfa : fn a with
      | ok v2 =>
          rw [hfa] at h
          simp at h
          exact ⟨0, Nat.le_refl 0, by rw [Nat.add_zero, hfa, h]⟩
      | error e2 => rw [hfa] at h; simp at h
  | succ n ih =>
      intro d a v h
      simp only [retryAux] at h
      cases hfa : fn a with
      | ok v2 =>
          rw [hfa] at h
          simp at h
          exact ⟨0, Nat.zero_le _, by rw [Nat.add_zero, hfa, h]⟩
      | error e2 =>
          rw [hfa] at h
          by_cases hq : quota e2 = true
          · simp only [hq, if_true] at h
            obtain ⟨k, hk, hke⟩ := ih (mul d) (a + 1) v h
            exact ⟨k + 1, Nat.succ_le_succ hk,
              by rw [show a + (k + 1) = a + 1 + k by omega]; exact hke⟩
          · simp only [hq, if_false] at h
            simp at h

lemma retryAux_nonquota (quota : JsError → Bool) (mul : ℚ → ℚ) (fn : Nat → Except JsError α)
    (r : Nat) (d : ℚ) (a : Nat) (e : JsError) (he : fn a = Except.error e)
    (hn : quota e = false) :
    (retryAux quota mul fn r d a).result = Except.error e := by
  cases r <;> simp [retryAux, he, hn]

lemma retryAux_zero (quota : JsError → Bool) (mul : ℚ → ℚ) (fn : Nat → Except JsError α)
    (d : ℚ) (a : Nat) (e : JsError) (he : fn a = Except.error e) :
    (retryAux quota mul fn 0 d a).result = Except.error e := by
  simp [retryAux, he]



/-- An always-thrown rate-limit error: message mentions 429 and the
status field is 429, so both classifiers accept it. -/
def quotaErrSample : JsError := ⟨"429", some 429⟩

/-- An error that neither classifier accepts. -/
def otherErrSample : JsError := ⟨"boom", none⟩

/-- Claim C1: for every zero-argument asynchronous operation that always
raises a rate-limit/quota error, the retry wrapper `fetchWithRetry`
configured with `retries = 3` performs exactly 4 attempts in total (and in
general at most `retries + 1` attempts), and each successive backoff delay
is at least the previous one.  Stated for the wrapper of
`geminiService.ts` and for the unnamed variant's wrapper alike. -/
theorem c1_retry_bound (fn : Nat → Except JsError α) (d : ℚ) (rg : Nat) (dg : ℚ)
    (hd : 0 ≤ d)
    (hq : ∀ n, ∃ e, fn n = Except.error e ∧ isQuotaError e = true ∧ isQuotaErrorP0 e = true) :
    (fetchWithRetry fn 3 d).attempts = 4 ∧
      List.Chain' (fun x y : ℚ => x ≤ y) (fetchWithRetry fn 3 d).delays ∧
      (fetchWithRetryP0 fn 3 d).attempts = 4 ∧
      List.Chain' (fun x y : ℚ => x ≤ y) (fetchWithRetryP0 fn 3 d).delays ∧
      (fetchWithRetry fn rg dg).attempts ≤ rg + 1 ∧
      (fetchWithRetryP0 fn rg dg).attempts ≤ rg + 1 := by
  have hq1 : ∀ n, ∃ e, fn n = Except.error e ∧ isQuotaError e = true := by
    intro n; obtain ⟨e, he, h1, _⟩ := hq n; exact ⟨e, he, h1⟩
  have hq2 : ∀ n, ∃ e, fn n = Except.error e ∧ isQuotaErrorP0 e = true := by
    intro n; obtain ⟨e, he, _, h2⟩ := hq n; exact ⟨e, he, h2⟩
  have hm1 : ∀ x : ℚ, 0 ≤ x → x ≤ x * (3 / 2) := by
    intro x hx; nlinarith
  have hm10 : ∀ x : ℚ, 0 ≤ x → 0 ≤ x * (3 / 2) := by
    intro x hx; nlinarith
  have hm2 : ∀ x : ℚ, 0 ≤ x → x ≤ x * 2 := by
    intro x hx; nlinarith
  have hm20 : ∀ x : ℚ, 0 ≤ x → 0 ≤ x * 2 := by
    intro x hx; nlinarith
  refine ⟨(retryAux_always _ _ fn hq1 3 d 0).1, ?_,
    (retryAux_always _ _ fn hq2 3 d 0).1, ?_,
    retryAux_attempts_le _ _ fn rg dg 0, retryAux_attempts_le _ _ fn rg dg 0⟩
  · rw [show (fetchWithRetry fn 3 d).delays = (retryAux isQuotaError (fun x => x * (3 / 2)) fn 3 d 0).delays from rfl,
      (retryAux_always _ _ fn hq1 3 d 0).2]
    exact geomList_chain _ hm1 hm10 3 d hd
  · rw [show (fetchWithRetryP0 fn 3 d).delays = (retryAux isQuotaErrorP0 (fun x => x * 2) fn 3 d 0).delays from rfl,
      (retryAux_always _ _ fn hq2 3 d 0).2]
    exact geomList_chain _ hm2 hm20 3 d hd

/-- Witness for C1: the concrete operation that always throws a 429 error,
run with `retries = 3` and initial delay 2000 ms. -/
theorem c1_retry_bound_witness :
    (fetchWithRetry (fun _ => (Except.error quotaErrSample : Except JsError Unit)) 3 2000).attempts = 4 ∧
      List.Chain' (fun x y : ℚ => x ≤ y)
        (fetchWithRetry (fun _ => (Except.error quotaErrSample : Except JsError Unit)) 3 2000).delays ∧
      (fetchWithRetryP0 (fun _ => (Except.error quotaErrSample : Except JsError Unit)) 3 2000).attempts = 4 ∧
      List.Chain' (fun x y : ℚ => x ≤ y)
        (fetchWithRetryP0 (fun _ => (Except.error quotaErrSample : Except JsError Unit)) 3 2000).delays ∧
      (fetchWithRetry (fun _ => (Except.error quotaErrSample : Except JsError Unit)) 7 100).attempts ≤ 7 + 1 ∧
      (fetchWithRetryP0 (fun _ => (Except.error quotaErrSample : Except JsError Unit)) 7 100).attempts ≤ 7 + 1 :=
  c1_retry_bound (fun _ => Except.error quotaErrSample) 2000 7 100 (by norm_num)
    (fun _ => ⟨quotaErrSample, rfl, by decide, by decide⟩)

/-- Claim C2: a failed attempt whose error is not classified as
rate-limit/quota, or an exhausted retry budget, makes `fetchWithRetry`
propagate that very error unchanged; any error coming out of the wrapper
was raised by some attempt of the wrapped call, and a success coming out
of the wrapper was produced by some attempt — the wrapper never swallows
a non-rate-limit error and never fabricates a success.  Stated for both
wrappers. -/
theorem c2_error_propagation (fn : Nat → Except JsError α) (r : Nat) (d : ℚ)
    (e : JsError) (v : α) :
    (fn 0 = Except.error e → isQuotaError e = false →
        (fetchWithRetry fn r d).result = Except.error e) ∧
      (fn 0 = Except.error e → (fetchWithRetry fn 0 d).result = Except.error e) ∧
      ((fetchWithRetry fn r d).result = Except.error e →
        ∃ k, k ≤ r ∧ fn k = Except.error e) ∧
      ((fetchWithRetry fn r d).result = Except.ok v →
        ∃ k, k ≤ r ∧ fn k = Except.ok v) ∧
      (fn 0 = Except.error e → isQuotaErrorP0 e = false →
        (fetchWithRetryP0 fn r d).result = Except.error e) ∧
      (fn 0 = Except.error e → (fetchWithRetryP0 fn 0 d).result = Except.error e) ∧
      ((fetchWithRetryP0 fn r d).result = Except.error e →
        ∃ k, k ≤ r ∧ fn k = Except.error e) ∧
      ((fetchWithRetryP0 fn r d).result = Except.ok v →
        ∃ k, k ≤ r ∧ fn k = Except.ok v) := by
  refine ⟨fun he hn => retryAux_nonquota _ _ fn r d 0 e he hn,
    fun he => retryAux_zero _ _ fn d 0 e he,
    fun h => ?_, fun h => ?_,
    fun he hn => retryAux_nonquota _ _ fn r d 0 e he hn,
    fun he => retryAux_zero _ _ fn d 0 e he,
    fun h => ?_, fun h => ?_⟩
  · obtain ⟨k, hk, hke⟩ := retryAux_result_error _ _ fn r d 0 e h
    exact ⟨k, hk, by simpa using hke⟩
  · obtain ⟨k, hk, hke⟩ := retryAux_result_ok _ _ fn r d 0 v h
    exact ⟨k, hk, by simpa using hke⟩
  · obtain ⟨k, hk, hke⟩ := retryAux_result_error _ _ fn r d 0 e h
    exact ⟨k, hk, by simpa using hke⟩
  · obtain ⟨k, hk, hke⟩ := retryAux_result_ok _ _ fn r d 0 v h
    exact ⟨k, hk, by simpa using hke⟩

/-- Witness for C2: an operation that always throws a non-quota error is
propagated unchanged by both wrappers, even with budget remaining. -/
theorem c2_error_propagation_witness :
    (fetchWithRetry (fun _ => (Except.error otherErrSample : Except JsError Unit)) 5 1).result =
        Except.error otherErrSample ∧
      (fetchWithRetryP0 (fun _ => (Except.error otherErrSample : Except JsError Unit)) 5 1).result =
        Except.error otherErrSample :=
  ⟨(c2_error_propagation (fun _ => Except.error otherErrSample) 5 1 otherErrSample ()).1
      rfl (by decide),
    (c2_error_propagation (fun _ => Except.error otherErrSample) 5 1 otherErrSample
      ()).2.2.2.2.1 rfl (by decide)⟩



lemma map_publishFlip_of_no_approved (posts : List Post)
    (h : posts.filter isApprovedPost = []) : posts.map publishFlip = posts := by
  induction posts with
  | nil => rfl
  | cons p rest ih =>
      rw [List.filter_cons] at h
      by_cases hp : isApprovedPost p = true
      · rw [if_pos hp] at h
        exact absurd h (List.cons_ne_nil _ _)
      · rw [if_neg hp] at h
        have hflip : publishFlip p = p := by
          simp only [publishFlip, isApprovedPost] at hp ⊢
          rw [if_neg hp]
        rw [List.map_cons, hflip, ih h]

/-- Claim C3: publish is all-or-nothing.  The external call is handed
exactly the posts whose status is `APPROVED` (and is not made at all when
there are none); when the call succeeds every `APPROVED` post becomes
`PUBLISHED` and no other post changes (`publishFlip` is the identity on
non-approved posts); when the call fails the plan is returned untouched. -/
theorem c3_publish_all_or_nothing (posts : List Post) (sendOk : Bool) :
    ((handlePublish posts sendOk).2 =
        if (posts.filter isApprovedPost).isEmpty then none
        else some (posts.filter isApprovedPost)) ∧
      ((handlePublish posts sendOk).1 =
        if sendOk then posts.map publishFlip else posts) ∧
      (∀ p : Post, p.status ≠ PostStatus.APPROVED → publishFlip p = p) ∧
      (∀ p : Post, p.status = PostStatus.APPROVED →
        publishFlip p = { p with status := PostStatus.PUBLISHED }) := by
  refine ⟨?_, ?_, ?_, ?_⟩
  · by_cases he : (posts.filter isApprovedPost).isEmpty = true
    · simp [handlePublish, he]
    · cases sendOk <;> simp [handlePublish, he]
  · by_cases he : (posts.filter isApprovedPost).isEmpty = true
    · have h0 : posts.filter isApprovedPost = [] := List.isEmpty_iff.mp he
      cases sendOk <;> simp [handlePublish, he, map_publishFlip_of_no_approved posts h0]
    · cases sendOk <;> simp [handlePublish, he]
  · intro p hp
    have hb : (p.status == PostStatus.APPROVED) = false := beq_eq_false_iff_ne.mpr hp
    simp [publishFlip, hb]
  · intro p hp
    simp [publishFlip, hp]



/-- A pending post used as concrete input. -/
def pendingPostSample : Post :=
  { id := "p1", title := "t", type := "Post", content := "c", script := none, day := 1,
    date := 0, imagePrompt := "ip", imageUrl := "", status := PostStatus.PENDING,
    editCount := 0 }

/-- The same post after publication. -/
def publishedPostSample : Post :=
  { pendingPostSample with status := PostStatus.PUBLISHED }

/-- Counterexample to claim C4 as stated: on a plan holding one PUBLISHED
post, `approvePost` on that post's id is not a no-op (and nothing rejects
it) — it moves the post back to APPROVED, so APPROVED is reached from
PUBLISHED. -/
theorem c4_approve_counterexample :
    publishedPostSample.status = PostStatus.PUBLISHED ∧
      approvePost [publishedPostSample] "p1" ≠ [publishedPostSample] ∧
      (approvePost [publishedPostSample] "p1").map (fun p => p.status) =
        [PostStatus.APPROVED] := by
  decide

/-- Claim C4 (amended): `approvePost` sets the status of every post whose
id matches to APPROVED regardless of its current status — PENDING →
APPROVED as claimed, a no-op on an already APPROVED post, but also
PUBLISHED → APPROVED; posts with a different id are returned unchanged,
and no field other than `status` is touched. -/
theorem c4_approve_amended (posts : List Post) (idv : String) :
    (approvePost posts idv).length = posts.length ∧
      ((approvePost posts idv).map (fun p => p.id) = posts.map (fun p => p.id)) ∧
      (∀ p : Post, p ∈ posts → p.id = idv →
        { p with status := PostStatus.APPROVED } ∈ approvePost posts idv) ∧
      (∀ p : Post, p ∈ posts → p.id ≠ idv → p ∈ approvePost posts idv) ∧
      (∀ q : Post, q ∈ approvePost posts idv → q.id = idv →
        q.status = PostStatus.APPROVED) := by
  refine ⟨?_, ?_, ?_, ?_, ?_⟩
  · simp [approvePost]
  · rw [approvePost, List.map_map]
    refine List.map_congr_left ?_
    intro p _
    show (approveFlip idv p).id = p.id
    by_cases h : (p.id == idv) = true <;> simp [approveFlip, h]
  · intro p hp hid
    have hfp : approveFlip idv p = { p with status := PostStatus.APPROVED } := by
      simp [approveFlip, hid]
    exact hfp ▸ List.mem_map_of_mem (approveFlip idv) hp
  · intro p hp hid
    have hb : (p.id == idv) = false := beq_eq_false_iff_ne.mpr hid
    have hfp : approveFlip idv p = p := by simp [approveFlip, hb]
    exact hfp ▸ List.mem_map_of_mem (approveFlip idv) hp
  · intro q hq hid
    obtain ⟨p, hp, hfp⟩ := List.mem_map.mp hq
    by_cases h : p.id = idv
    · rw [← hfp]
      simp [approveFlip, h]
    · have hb : (p.id == idv) = false := beq_eq_false_iff_ne.mpr h
      have hfq : approveFlip idv p = p := by simp [approveFlip, hb]
      rw [hfq] at hfp
      rw [← hfp] at hid
      exact absurd hid h

/-- Witness for the amended C4: approving the pending sample post by its
id yields the approved version of it in the plan. -/
theorem c4_approve_amended_witness :
    { pendingPostSample with status := PostStatus.APPROVED } ∈
      approvePost [pendingPostSample] "p1" :=
  (c4_approve_amended [pendingPostSample] "p1").2.2.1 pendingPostSample
    (by decide) rfl

/-- Claim C10: a successful `editPostContent` keeps `id`, `title`, `type`,
`day` and `date` of the input post, increments `editCount` by exactly one
and resets the status to PENDING — only `content`, `script`,
`imagePrompt`, `imageUrl`, `editCount` and `status` can differ. -/
theorem c10_edit_frame (post : Post) (feedback : String) (updated : EditResult)
    (imgUpd : Option String) :
    (editPostContent post feedback updated imgUpd).id = post.id ∧
      (editPostContent post feedback updated imgUpd).title = post.title ∧
      (editPostContent post feedback updated imgUpd).type = post.type ∧
      (editPostContent post feedback updated imgUpd).day = post.day ∧
      (editPostContent post feedback updated imgUpd).date = post.date ∧
      (editPostContent post feedback updated imgUpd).editCount = post.editCount + 1 ∧
      (editPostContent post feedback updated imgUpd).status = PostStatus.PENDING :=
  ⟨rfl, rfl, rfl, rfl, rfl, rfl, rfl⟩



lemma planPostsFrom_map_status (now : Int) (ids : Nat → String) :
    ∀ (raw : List RawPost) (i : Nat),
      (planPostsFrom now ids i raw).map (fun p => p.status) =
        List.replicate raw.length PostStatus.PENDING := by
  intro raw
  induction raw with
  | nil => intro i; rfl
  | cons p rest ih =>
      intro i
      simp [planPostsFrom, normalizePost, ih (i + 1), List.replicate_succ]

lemma planPostsFrom_map_editCount (now : Int) (ids : Nat → String) :
    ∀ (raw : List RawPost) (i : Nat),
      (planPostsFrom now ids i raw).map (fun p => p.editCount) =
        List.replicate raw.length 0 := by
  intro raw
  induction raw with
  | nil => intro i; rfl
  | cons p rest ih =>
      intro i
      simp [planPostsFrom, normalizePost, ih (i + 1), List.replicate_succ]

lemma planPostsFrom_map_imageUrl (now : Int) (ids : Nat → String) :
    ∀ (raw : List RawPost) (i : Nat),
      (planPostsFrom now ids i raw).map (fun p => p.imageUrl) =
        List.replicate raw.length "" := by
  intro raw
  induction raw with
  | nil => intro i; rfl
  | cons p rest ih =>
      intro i
      simp [planPostsFrom, normalizePost, ih (i + 1), List.replicate_succ]

lemma planPostsFrom_map_date (now : Int) (ids : Nat → String) :
    ∀ (raw : List RawPost) (i : Nat),
      (planPostsFrom now ids i raw).map (fun p => p.date) =
        raw.map (fun p => now + (p.day - 1) * msPerDay) := by
  intro raw
  induction raw with
  | nil => intro i; rfl
  | cons p rest ih =>
      intro i
      simp [planPostsFrom, normalizePost, ih (i + 1)]

lemma planPostsFrom_map_id (now : Int) (ids : Nat → String) :
    ∀ (raw : List RawPost) (i : Nat),
      (planPostsFrom now ids i raw).map (fun p => p.id) =
        (List.range' i raw.length).map ids := by
  intro raw
  induction raw with
  | nil => intro i; rfl
  | cons p rest ih =>
      intro i
      simp only [List.length_cons, List.range'_succ]
      simp [planPostsFrom, normalizePost, ih (i + 1)]

lemma planPostsFromP0_map_status (now : Int) (ids : Nat → String) (img : Nat → ImgOutcome)
    (seeds : Nat → String) :
    ∀ (raw : List RawPost) (i : Nat),
      (planPostsFromP0 now ids img seeds i raw).map (fun p => p.status) =
        List.replicate raw.length PostStatus.PENDING := by
  intro raw
  induction raw with
  | nil => intro i; rfl
  | cons p rest ih =>
      intro i
      simp [planPostsFromP0, normalizePostP0, ih (i + 1), List.replicate_succ]

lemma planPostsFromP0_map_editCount (now : Int) (ids : Nat → String) (img : Nat → ImgOutcome)
    (seeds : Nat → String) :
    ∀ (raw : List RawPost) (i : Nat),
      (planPostsFromP0 now ids img seeds i raw).map (fun p => p.editCount) =
        List.replicate raw.length 0 := by
  intro raw
  induction raw with
  | nil => intro i; rfl
  | cons p rest ih =>
      intro i
      simp [planPostsFromP0, normalizePostP0, ih (i + 1), List.replicate_succ]

lemma planPostsFromP0_map_date (now : Int) (ids : Nat → String) (img : Nat → ImgOutcome)
    (seeds : Nat → String) :
    ∀ (raw : List RawPost) (i : Nat),
      (planPostsFromP0 now ids img seeds i raw).map (fun p => p.date) =
        (List.range' i raw.length).map (fun k => now + (k : Int) * msPerDay) := by
  intro raw
  induction raw with
  | nil => intro i; rfl
  | cons p rest ih =>
      intro i
      simp only [List.length_cons, List.range'_succ]
      simp [planPostsFromP0, normalizePostP0, ih (i + 1)]

lemma planPostsFromP0_map_imageUrl_failure (now : Int) (ids : Nat → String)
    (seeds : Nat → String) :
    ∀ (raw : List RawPost) (i : Nat),
      (planPostsFromP0 now ids (fun _ => ImgOutcome.failure) seeds i raw).map
          (fun p => p.imageUrl) =
        (List.range' i raw.length).map
          (fun k => "https://picsum.photos/seed/" ++ seeds k ++ "/800/800") := by
  intro raw
  induction raw with
  | nil => intro i; rfl
  | cons p rest ih =>
      intro i
      simp only [List.length_cons, List.range'_succ]
      simp [planPostsFromP0, normalizePostP0, ih (i + 1)]

lemma planPostsFromP0_map_imageUrl (now : Int) (ids : Nat → String) (img : Nat → ImgOutcome)
    (seeds : Nat → String) :
    ∀ (raw : List RawPost) (i : Nat),
      (planPostsFromP0 now ids img seeds i raw).map (fun p => p.imageUrl) =
        (List.range' i raw.length).map (fun k => p0ImageUrl (img k) (seeds k)) := by
  intro raw
  induction raw with
  | nil => intro i; rfl
  | cons p rest ih =>
      intro i
      simp only [List.length_cons, List.range'_succ]
      cases h : img i <;>
        simp [planPostsFromP0, normalizePostP0, p0ImageUrl, h, ih (i + 1)]

/-- A raw model record whose `day` (5) differs from its position (0) in a
one-element plan. -/
def rawSample : RawPost := ⟨"t", "Post", "c", none, 5, "ip"⟩

/-- Counterexample to claim C5 as stated: in the unnamed variant's inline
image stage the fallback reference is seeded by a fresh `Math.random()`
draw, so two failing runs over the very same post that differ only in the
drawn random value produce different placeholder references — the
placeholder is not derived from the post's id. -/
theorem c5_image_fallback_counterexample :
    (generateContentPlanPostsP0 0 (fun _ => "id0") (fun _ => ImgOutcome.failure)
        (fun _ => "0.1") [rawSample]).map (fun p => p.imageUrl) ≠
      (generateContentPlanPostsP0 0 (fun _ => "id0") (fun _ => ImgOutcome.failure)
        (fun _ => "0.2") [rawSample]).map (fun p => p.imageUrl) := by
  decide

/-- Claim C5 (amended): in `generateImageForPost` (`geminiService.ts`, the
image stage the app imports) every failure — a response without an inline
payload as well as a thrown error — is caught at the post boundary and
yields the same non-empty placeholder reference, keyed only on the post's
id; in the unnamed variant's inline image loop the fallback reference is
instead keyed on the per-iteration random draw, not on the post id. -/
theorem c5_image_fallback_amended (post : Post) (now : Int) (ids seeds : Nat → String)
    (raw : List RawPost) :
    generateImageForPost post ImgOutcome.noInline =
        "https://picsum.photos/seed/" ++ post.id ++ "/800/800" ∧
      generateImageForPost post ImgOutcome.failure =
        "https://picsum.photos/seed/" ++ post.id ++ "/800/800" ∧
      generateImageForPost post ImgOutcome.failure ≠ "" ∧
      ((generateContentPlanPostsP0 now ids (fun _ => ImgOutcome.failure) seeds raw).map
          (fun p => p.imageUrl) =
        (List.range raw.length).map
          (fun k => "https://picsum.photos/seed/" ++ seeds k ++ "/800/800")) := by
  refine ⟨rfl, rfl, ?_, ?_⟩
  · intro h
    have h2 : ("https://picsum.photos/seed/" ++ post.id ++ "/800/800" : String) = "" := h
    have hlen := congrArg String.length h2
    rw [String.length_append, String.length_append] at hlen
    have e1 : ("https://picsum.photos/seed/" : String).length = 27 := rfl
    have e2 : ("/800/800" : String).length = 8 := rfl
    have e3 : ("" : String).length = 0 := rfl
    rw [e1, e2, e3] at hlen
    omega
  · rw [List.range_eq_range']
    exact planPostsFromP0_map_imageUrl_failure now ids seeds raw 0

/-- Counterexample to claim C6 as stated: the unnamed variant derives the
date from the loop index, not from the model-returned `day`; a single-post
plan whose record carries `day = 5` is dated at the run start (offset 0)
instead of run start plus 4 days. -/
theorem c6_plan_days_counterexample :
    (generateContentPlanPostsP0 0 (fun _ => "id0") (fun _ => ImgOutcome.noInline)
        (fun _ => "s") [rawSample]).map (fun p => p.date) ≠
      [(5 - 1) * msPerDay] := by
  decide

/-- Claim C6 (amended): `periodDays` is 7 for WEEK and 30 for MONTH in
both service files; in `geminiService.ts` every generated post's date is
the run start plus `day - 1` days with `day` taken from the model record,
while in the unnamed variant the date is the run start plus the record's
position in the returned sequence, regardless of `day`. -/
theorem c6_plan_days_amended (now : Int) (ids : Nat → String) (img : Nat → ImgOutcome)
    (seeds : Nat → String) (raw : List RawPost) :
    periodDays Period.WEEK = 7 ∧
      periodDays Period.MONTH = 30 ∧
      ((generateContentPlanPosts now ids raw).map (fun p => p.date) =
        raw.map (fun p => now + (p.day - 1) * msPerDay)) ∧
      ((generateContentPlanPostsP0 now ids img seeds raw).map (fun p => p.date) =
        (List.range raw.length).map (fun k => now + (k : Int) * msPerDay)) := by
  refine ⟨rfl, rfl, planPostsFrom_map_date now ids raw 0, ?_⟩
  rw [List.range_eq_range']
  exact planPostsFromP0_map_date now ids img seeds raw 0

/-- Counterexample to claim C7 as stated: the unnamed variant returns
posts whose `imageUrl` already carries the generated or fallback image
reference rather than the empty string; and in either variant the ids are
plain `Math.random()` draws, so a colliding draw yields duplicate ids
within one plan. -/
theorem c7_normalization_counterexample :
    ((generateContentPlanPostsP0 0 (fun _ => "id0") (fun _ => ImgOutcome.failure)
        (fun _ => "s") [rawSample]).map (fun p => p.imageUrl) ≠ [""]) ∧
      ¬ ((generateContentPlanPosts 0 (fun _ => "dup") [rawSample, rawSample]).map
          (fun p => p.id)).Nodup := by
  decide

/-- Claim C7 (amended): every post returned by either plan-generation
variant has status PENDING and `editCount` 0; in `geminiService.ts` the
`imageUrl` is the empty string, whereas in the unnamed variant the
`imageUrl` carries the per-post image result — the generated data url on
an inline payload, the empty string when the response had no inline
payload, and the random-seeded fallback reference when the image chain
threw; the ids are exactly the fresh random draws in positional order, so
they are pairwise distinct precisely when the draws used are pairwise
distinct (the code itself enforces no uniqueness). -/
theorem c7_normalization_amended (now : Int) (ids : Nat → String) (img : Nat → ImgOutcome)
    (seeds : Nat → String) (raw : List RawPost) :
    ((generateContentPlanPosts now ids raw).map (fun p => p.status) =
        List.replicate raw.length PostStatus.PENDING) ∧
      ((generateContentPlanPosts now ids raw).map (fun p => p.editCount) =
        List.replicate raw.length 0) ∧
      ((generateContentPlanPosts now ids raw).map (fun p => p.imageUrl) =
        List.replicate raw.length "") ∧
      ((generateContentPlanPosts now ids raw).map (fun p => p.id) =
        (List.range raw.length).map ids) ∧
      (((generateContentPlanPosts now ids raw).map (fun p => p.id)).Nodup ↔
        ((List.range raw.length).map ids).Nodup) ∧
      ((generateContentPlanPostsP0 now ids img seeds raw).map (fun p => p.status) =
        List.replicate raw.length PostStatus.PENDING) ∧
      ((generateContentPlanPostsP0 now ids img seeds raw).map (fun p => p.editCount) =
        List.replicate raw.length 0) ∧
      ((generateContentPlanPostsP0 now ids img seeds raw).map (fun p => p.imageUrl) =
        (List.range raw.length).map (fun k => p0ImageUrl (img k) (seeds k))) := by
  have hid : (generateContentPlanPosts now ids raw).map (fun p => p.id) =
      (List.range raw.length).map ids := by
    rw [List.range_eq_range']
    exact planPostsFrom_map_id now ids raw 0
  refine ⟨planPostsFrom_map_status now ids raw 0,
    planPostsFrom_map_editCount now ids raw 0,
    planPostsFrom_map_imageUrl now ids raw 0,
    hid, by rw [hid],
    planPostsFromP0_map_status now ids img seeds raw 0,
    planPostsFromP0_map_editCount now ids img seeds raw 0, ?_⟩
  rw [List.range_eq_range']
  exact planPostsFromP0_map_imageUrl now ids img seeds raw 0



/-- Counterexample to claim C8 as stated: the title `T1` is recorded
under niche `food`, and the plan-generation exclusion list built for the
different niche `travel` nevertheless includes `T1`, because the same
title is also recorded under `travel`.  The filter keys on the entry's
own niche only, not on the niche a title was first recorded under. -/
theorem c8_history_counterexample :
    (⟨"food", "T1"⟩ : ContentHistoryItem) ∈
        ([⟨"food", "T1"⟩, ⟨"travel", "T1"⟩] : List ContentHistoryItem) ∧
      ("travel" : String) ≠ "food" ∧
      "T1" ∈ relevantHistory [⟨"food", "T1"⟩, ⟨"travel", "T1"⟩] "travel" := by
  decide

/-- Claim C8 (amended): the exclusion list built for a niche contains a
title exactly when some history entry carries that title under a niche
matching the target case-insensitively — so a title recorded under niche
N appears for N (however cased) and does not appear for a non-matching
niche unless it is also recorded under a niche matching that one; when no
entry matches, the instruction embedded in the prompt is empty, and when
some entry matches it is the non-empty exclusion template. -/
theorem c8_history_amended (history : List ContentHistoryItem) (niche T : String) :
    (T ∈ relevantHistory history niche ↔
        ∃ h : ContentHistoryItem, h ∈ history ∧ h.title = T ∧
          strToLower h.niche = strToLower niche) ∧
      (relevantHistory history niche = [] → historyPrompt history niche = "") ∧
      (relevantHistory history niche ≠ [] →
        historyPrompt history niche =
          "ВАЖНО: Никогда не повторяй эти темы: " ++
            String.intercalate ", " (relevantHistory history niche) ++ ".") := by
  refine ⟨?_, ?_, ?_⟩
  · constructor
    · intro hT
      obtain ⟨h, hmem, hth⟩ := List.mem_map.mp hT
      obtain ⟨hin, hniche⟩ := List.mem_filter.mp hmem
      exact ⟨h, hin, hth, by simpa using hniche⟩
    · intro ⟨h, hin, hth, hniche⟩
      refine List.mem_map.mpr ⟨h, List.mem_filter.mpr ⟨hin, ?_⟩, hth⟩
      simpa using hniche
  · intro h
    simp [historyPrompt, h]
  · intro h
    have hlen : 0 < (relevantHistory history niche).length :=
      List.length_pos.mpr h
    simp [historyPrompt, hlen]

/-- Witness for the amended C8: a history entry under `food` produces no
exclusion instruction for `travel`, while the matching niche receives the
template listing the recorded title. -/
theorem c8_history_amended_witness :
    historyPrompt [⟨"food", "T1"⟩] "travel" = "" ∧
      historyPrompt [⟨"food", "T1"⟩] "Food" =
        "ВАЖНО: Никогда не повторяй эти темы: " ++
          String.intercalate ", " (relevantHistory [⟨"food", "T1"⟩] "Food") ++ "." :=
  ⟨(c8_history_amended [⟨"food", "T1"⟩] "travel" "T1").2.1 (by decide),
    (c8_history_amended [⟨"food", "T1"⟩] "Food" "T1").2.2 (by decide)⟩



lemma callsOf_appImageLoop : ∀ (n i : Nat), callsOf (appImageLoop i n) = List.range' i n := by
  intro n
  induction n with
  | zero => intro i; rfl
  | succ m ih =>
      intro i
      rw [List.range'_succ]
      simp [appImageLoop, callsOf, ih (i + 1)]

lemma gapsAux_appImageLoop : ∀ (n i : Nat),
    gapsAux 0 (appImageLoop i n) = List.replicate n 1 := by
  intro n
  induction n with
  | zero => intro i; rfl
  | succ m ih =>
      intro i
      simp [appImageLoop, gapsAux, ih (i + 1), List.replicate_succ]

lemma filter_delay_appImageLoop : ∀ (n i : Nat),
    (appImageLoop i n).filter isDelayEvt = List.replicate n (ImgEvent.delay 4000) := by
  intro n
  induction n with
  | zero => intro i; rfl
  | succ m ih =>
      intro i
      simp [appImageLoop, isDelayEvt, List.filter_cons, ih (i + 1), List.replicate_succ]

lemma callsOf_p0ImageLoop : ∀ (n i : Nat), callsOf (p0ImageLoop i n) = List.range' i n := by
  intro n
  induction n with
  | zero => intro i; rfl
  | succ m ih =>
      intro i
      rw [List.range'_succ]
      by_cases h : 0 < i <;> simp [p0ImageLoop, callsOf, h, ih (i + 1)]

lemma gapsAux_p0ImageLoop_pos : ∀ (n i : Nat), 0 < i →
    gapsAux 0 (p0ImageLoop i n) = List.replicate n 1 := by
  intro n
  induction n with
  | zero => intro i _; rfl
  | succ m ih =>
      intro i hi
      simp [p0ImageLoop, hi, gapsAux, ih (i + 1) (Nat.succ_pos i), List.replicate_succ]

lemma filter_delay_p0ImageLoop_pos : ∀ (n i : Nat), 0 < i →
    (p0ImageLoop i n).filter isDelayEvt = List.replicate n (ImgEvent.delay 3000) := by
  intro n
  induction n with
  | zero => intro i _; rfl
  | succ m ih =>
      intro i hi
      simp [p0ImageLoop, hi, isDelayEvt, List.filter_cons, ih (i + 1) (Nat.succ_pos i),
        List.replicate_succ]

/-- Counterexample to claim C9 as stated: in the `App.tsx` background
image loop the 4000 ms pause is awaited inside the loop body before every
image call, including the very first one — for a single-post plan the
first (and only) call is preceded by one delay, where the claim requires
none. -/
theorem c9_sequencing_counterexample :
    delayGaps (appImageTrace 1) = [1] ∧ ([1] : List Nat) ≠ [0] := by
  decide

/-- Claim C9 (amended): in both loops the image calls are issued strictly
sequentially in submission order (the trace's calls are positions
`0, 1, ..., n-1` in order).  In the unnamed variant's inline loop the
fixed 3000 ms delay precedes every call except the very first, as
claimed; in the `App.tsx` background loop the fixed 4000 ms delay
precedes every call, including the first. -/
theorem c9_sequencing_amended (n : Nat) :
    callsOf (appImageTrace n) = List.range n ∧
      delayGaps (appImageTrace n) = List.replicate n 1 ∧
      ((appImageTrace n).filter isDelayEvt = List.replicate n (ImgEvent.delay 4000)) ∧
      callsOf (p0ImageTrace n) = List.range n ∧
      delayGaps (p0ImageTrace (n + 1)) = 0 :: List.replicate n 1 ∧
      ((p0ImageTrace (n + 1)).filter isDelayEvt =
        List.replicate n (ImgEvent.delay 3000)) := by
  refine ⟨?_, gapsAux_appImageLoop n 0, filter_delay_appImageLoop n 0, ?_, ?_, ?_⟩
  · rw [List.range_eq_range']
    exact callsOf_appImageLoop n 0
  · rw [List.range_eq_range']
    exact callsOf_p0ImageLoop n 0
  · show gapsAux 0 (p0ImageLoop 0 (n + 1)) = 0 :: List.replicate n 1
    simp [p0ImageLoop, gapsAux, gapsAux_p0ImageLoop_pos n 1 Nat.one_pos]
  · show (p0ImageLoop 0 (n + 1)).filter isDelayEvt = List.replicate n (ImgEvent.delay 3000)
    simp [p0ImageLoop, isDelayEvt, List.filter_cons,
      filter_delay_p0ImageLoop_pos n 1 Nat.one_pos]


end ContentFactory
